import Mathlib

/-!
Verification of the block-oriented positional result parser
(`ResultParser` in `csvcont.py`): token normalization, grade policy,
block segmentation, section location, subject field extraction,
historical semester extraction and the metadata merge.

Python strings are modelled as Lean `String`s over their ASCII fragment,
with the Python string primitives (`strip`, `split`, `upper`, `isdigit`,
`int`, membership) implemented as pure functions on the underlying
character lists so that everything evaluates by kernel reduction.
-/

set_option maxRecDepth 40000

namespace Csvcont

/-- Python `s.strip()` on a character list: drop whitespace at both ends. -/
def stripList (cs : List Char) : List Char :=
  ((cs.dropWhile Char.isWhitespace).reverse.dropWhile Char.isWhitespace).reverse

/-- Python `s.strip()`. -/
def pyStrip (s : String) : String :=
  String.mk (stripList s.data)

/-- ASCII uppercase of one character. -/
def upChar (c : Char) : Char :=
  if 97 ≤ c.toNat ∧ c.toNat ≤ 122 then Char.ofNat (c.toNat - 32) else c

/-- Python `s.upper()` on the ASCII fragment. -/
def pyUpper (s : String) : String :=
  String.mk (s.data.map upChar)

/-- Python `s.isdigit()` restricted to ASCII: nonempty and all decimal digits. -/
def pyIsDigitStr (s : String) : Bool :=
  !s.data.isEmpty && s.data.all Char.isDigit

/-- Python `sep.join(parts)` on character lists. -/
def joinWith (sep : List Char) : List (List Char) → List Char
  | [] => []
  | [x] => x
  | x :: xs => x ++ sep ++ joinWith sep xs

/-- Python `" ".join(parts)`. -/
def pyJoinSpace (parts : List String) : String :=
  String.mk (joinWith [' '] (parts.map String.data))

/-- Python `s.split(sep)` for a one-character separator, keeping empty pieces. -/
def splitOnChar (sep : Char) : List Char → List (List Char)
  | [] => [[]]
  | c :: cs =>
    if c = sep then [] :: splitOnChar sep cs
    else
      match splitOnChar sep cs with
      | [] => [[c]]
      | p :: ps => (c :: p) :: ps

/-- Worker for Python `s.split()`: accumulate the current word (reversed),
emitting it whenever a whitespace run starts. -/
def wordsAux : List Char → List Char → List (List Char)
  | [], acc => if acc.isEmpty then [] else [acc.reverse]
  | c :: cs, acc =>
    if c.isWhitespace then
      if acc.isEmpty then wordsAux cs [] else acc.reverse :: wordsAux cs []
    else wordsAux cs (c :: acc)

/-- Python `s.split()` — split on runs of whitespace, no empty pieces. -/
def pySplit (s : String) : List String :=
  (wordsAux s.data []).map String.mk

/-- Decimal value of a digit list, as read by Python `int`. -/
def charsToNat (cs : List Char) : Nat :=
  cs.foldl (fun a c => a * 10 + (c.toNat - 48)) 0

/-- Python `int(s)` on an all-digit string (the only shape reached in `to_numeric`). -/
def pyInt (s : String) : Int :=
  (charsToNat s.data : Int)

/-- Python `int(s)` as a fallible operation: succeeds exactly on all-digit input,
raises `ValueError` otherwise (sign-less inputs, the only shape reached here). -/
def pyIntParse (s : String) : Except String Int :=
  if pyIsDigitStr s then Except.ok (pyInt s) else Except.error "ValueError"

/-- `ResultParser.normalize` (csvcont.py:40-48): empty input becomes "0",
the value is stripped, and a case-insensitive "ZERO" becomes "0". -/
def normalize (v : String) : String :=
  if v.data.isEmpty then "0"
  else
    let v := pyStrip v
    if pyUpper v = "ZERO" then "0" else v

/-- `ResultParser.to_numeric` (csvcont.py:50-60): normalize, then either sum the
all-digit segments of a `+`-joined value or read the value as an integer,
with every failure degrading to 0. -/
def to_numeric (v : String) : Int :=
  let v := normalize v
  if v.data.contains '+' then
    ((splitOnChar '+' v.data).map String.mk).foldl
      (fun a x => if pyIsDigitStr (pyStrip x) then a + pyInt (pyStrip x) else a) 0
  else if pyIsDigitStr v then pyInt v else 0

/-- Sum of `int(x)` over the segments that pass the `isdigit` guard, with
errors from `int` propagated — the generator inside the `try` of
`to_numeric`'s `+` branch. -/
def sumDigitsE (xs : List String) : Except String Int :=
  xs.foldlM
    (fun a x =>
      if pyIsDigitStr (pyStrip x) then (pyIntParse (pyStrip x)).map (fun n => a + n)
      else Except.ok a) 0

/-- `ResultParser.to_numeric` with Python exceptions made explicit: the `+`
branch catches `ValueError` and returns 0; the final `int(v)` is guarded by
`v.isdigit()` but not wrapped in a `try`. -/
def to_numericE (v : String) : Except String Int :=
  let v := normalize v
  if v.data.contains '+' then
    match sumDigitsE ((splitOnChar '+' v.data).map String.mk) with
    | Except.ok n => Except.ok n
    | Except.error _ => Except.ok 0
  else if pyIsDigitStr v then pyIntParse v else Except.ok 0

/-- `ResultParser.get_grade` (csvcont.py:62-76): fixed thresholds on the
50-mark and 100-mark scales. -/
def get_grade (marks : Int) (max_marks : Nat) : String :=
  if max_marks = 50 then
    if marks ≥ 35 then "Distinction"
    else if marks ≥ 30 then "First"
    else if marks ≥ 25 then "Second"
    else if marks ≥ 18 then "Pass"
    else "Fail"
  else
    if marks ≥ 70 then "Distinction"
    else if marks ≥ 60 then "First"
    else if marks ≥ 50 then "Second"
    else if marks ≥ 35 then "Pass"
    else "Fail"

/-- One scan step of `re.sub(r"\s*\+\s*", "+", text)`: at the current
position, a whitespace run followed by `+` (and its trailing whitespace)
collapses to a single `+`; otherwise one character is emitted and scanning
advances by one, as `re.sub` does on a failed match. Fuel bounds the scan;
one unit per consumed character suffices. -/
def subPlusAux : Nat → List Char → List Char
  | 0, cs => cs
  | _ + 1, [] => []
  | fuel + 1, c :: cs =>
    match (c :: cs).dropWhile Char.isWhitespace with
    | '+' :: rest => '+' :: subPlusAux fuel (rest.dropWhile Char.isWhitespace)
    | _ => c :: subPlusAux fuel cs

/-- `re.sub(r"\s*\+\s*", "+", s)` as used in `clean_section_tokens`. -/
def subPlus (s : String) : String :=
  String.mk (subPlusAux s.data.length s.data)

/-- `ResultParser.clean_section_tokens` (csvcont.py:78-87): join with spaces,
collapse whitespace around `+`, re-split on whitespace. -/
def clean_section_tokens (tokens : List String) : List String :=
  if tokens.isEmpty then []
  else pySplit (subPlus (pyJoinSpace tokens))

/-- A cell of an output row: Python rows mix strings and ints. -/
inductive Cell where
  | str (s : String)
  | int (n : Int)
deriving DecidableEq, BEq, Repr

/-- Bounds-guarded token read `ts[p] if p < len(ts) else "0"`
(csvcont.py:141,144,150,153,185,189). -/
def getTok (ts : List String) (p : Nat) : String :=
  ts.getD p "0"

/-- Bounds-guarded total read
`to_numeric(ts[p]) if p < len(ts) else 0` (csvcont.py:159,193). -/
def totalAt (ts : List String) (p : Nat) : Int :=
  match ts.get? p with
  | some t => to_numeric t
  | none => 0

/-- Mutable locals of the subject-extraction loops in `parse_student_block`:
section pointers, processed-subject count, failure flag, grand totals. -/
structure SubjState where
  intPtr : Nat
  extPtr : Nat
  totPtr : Nat
  subjectCount : Nat
  anyFailed : Bool
  grandInt : Int
  grandExt : Int
deriving DecidableEq, Repr

/-- One iteration of the practical-subject loop (csvcont.py:139-178):
read theory/practical INT and EXT components, skip the embedded INT and EXT
subtotals, read the authoritative TOTAL, grade it on the positional 50/100
scale, and extend the row by 7 cells. -/
def practicalStep (intToks extToks totToks : List String) (st : SubjState) :
    List Cell × SubjState :=
  let thInt := getTok intToks st.intPtr
  let prInt := getTok intToks (st.intPtr + 1)
  let thExt := getTok extToks st.extPtr
  let prExt := getTok extToks (st.extPtr + 1)
  let subTotalVal := totalAt totToks st.totPtr
  let subjectCount := st.subjectCount + 1
  let maxMarks := if subjectCount = 6 then 50 else 100
  let grade := get_grade subTotalVal maxMarks
  let anyFailed := st.anyFailed || (grade == "Fail")
  let thIntVal := to_numeric thInt
  let prIntVal := to_numeric prInt
  let thExtVal := to_numeric thExt
  let prExtVal := to_numeric prExt
  let subjectSum := thIntVal + prIntVal + thExtVal + prExtVal
  ([Cell.str thInt, Cell.str thExt, Cell.str prInt, Cell.str prExt,
    Cell.int subjectSum, Cell.int subTotalVal, Cell.str grade],
   { intPtr := st.intPtr + 3, extPtr := st.extPtr + 3, totPtr := st.totPtr + 1,
     subjectCount := subjectCount, anyFailed := anyFailed,
     grandInt := st.grandInt + (thIntVal + prIntVal),
     grandExt := st.grandExt + (thExtVal + prExtVal) })

/-- One iteration of the theory-only loop (csvcont.py:183-208): read one INT
and one EXT component, read the TOTAL, grade it on the positional 50/100
scale, and extend the row by 4 cells. -/
def theoryStep (intToks extToks totToks : List String) (st : SubjState) :
    List Cell × SubjState :=
  let thInt := getTok intToks st.intPtr
  let thExt := getTok extToks st.extPtr
  let subTotalVal := totalAt totToks st.totPtr
  let subjectCount := st.subjectCount + 1
  let maxMarks := if subjectCount = 6 then 50 else 100
  let grade := get_grade subTotalVal maxMarks
  let anyFailed := st.anyFailed || (grade == "Fail")
  let thIntVal := to_numeric thInt
  let thExtVal := to_numeric thExt
  let subjectSum := thIntVal + thExtVal
  ([Cell.str thInt, Cell.str thExt, Cell.int subjectSum, Cell.str grade],
   { intPtr := st.intPtr + 1, extPtr := st.extPtr + 1, totPtr := st.totPtr + 1,
     subjectCount := subjectCount, anyFailed := anyFailed,
     grandInt := st.grandInt + thIntVal,
     grandExt := st.grandExt + thExtVal })

/-- Run a per-subject step `n` times, collecting each subject's row cells
(`row.extend(...)` once per iteration). -/
def runSteps (step : SubjState → List Cell × SubjState) :
    Nat → SubjState → List (List Cell) × SubjState
  | 0, st => ([], st)
  | n + 1, st =>
    let (cells, st1) := step st
    let (rest, st2) := runSteps step n st1
    (cells :: rest, st2)

/-- First index of each of the markers `EXT`, `INT`, `TOTAL` in the token
list (csvcont.py:105-110); a missing marker contributes nothing. -/
def foundMarkers (tokens : List String) : List (Nat × String) :=
  ["EXT", "INT", "TOTAL"].filterMap fun kw =>
    (tokens.findIdx? (fun t => t == kw)).map fun i => (i, kw)

/-- Insert into a list sorted by first component. -/
def insertByIdx (x : Nat × String) : List (Nat × String) → List (Nat × String)
  | [] => [x]
  | y :: ys => if x.1 ≤ y.1 then x :: y :: ys else y :: insertByIdx x ys

/-- `sorted(...)` of the found `(index, keyword)` pairs (csvcont.py:112);
marker indices are distinct, so sorting by index determines the order. -/
def sortByIdx : List (Nat × String) → List (Nat × String)
  | [] => []
  | x :: xs => insertByIdx x (sortByIdx xs)

/-- The loop of csvcont.py:118-125: slice the tokens between consecutive
markers, `normalize` each token of the slice, run `clean_section_tokens`
on the result, and assign to the section named by the marker. -/
def buildSections (tokens : List String) :
    List (Nat × String) → List String × List String × List String
  | [] => ([], [], [])
  | (start, kw) :: rest =>
    let endIdx :=
      match rest with
      | [] => tokens.length
      | (nxt, _) :: _ => nxt
    let raw := ((tokens.drop (start + 1)).take (endIdx - (start + 1))).map normalize
    let cleaned := clean_section_tokens raw
    if kw = "EXT" then
      (cleaned, (buildSections tokens rest).2.1, (buildSections tokens rest).2.2)
    else if kw = "INT" then
      ((buildSections tokens rest).1, cleaned, (buildSections tokens rest).2.2)
    else if kw = "TOTAL" then
      ((buildSections tokens rest).1, (buildSections tokens rest).2.1, cleaned)
    else buildSections tokens rest

/-- `" ".flatten(block).split()` (csvcont.py:91-92). -/
def blockTokens (block : List String) : List String :=
  pySplit (pyJoinSpace block)

/-- The `(ext_tokens, int_tokens, total_tokens)` a block yields
(csvcont.py:104-125). -/
def sectionsOfBlock (block : List String) : List String × List String × List String :=
  buildSections (blockTokens block) (sortByIdx (foundMarkers (blockTokens block)))

/-- Match the regex `(\d+)\s*-\s*(\d+)\s*-\s*(\d+\.\d{2})` at the head of the
input; on success return the three capture groups and the unconsumed rest.
Each quantified piece is followed by a literal the piece cannot match, so the
greedy maximal run is the unique candidate and no backtracking arises. -/
def matchTripleAt (cs : List Char) : Option ((String × String × String) × List Char) :=
  let p1 := cs.span Char.isDigit
  if p1.1.isEmpty then none
  else
    match p1.2.dropWhile Char.isWhitespace with
    | '-' :: r3 =>
      let r4 := r3.dropWhile Char.isWhitespace
      let p2 := r4.span Char.isDigit
      if p2.1.isEmpty then none
      else
        match p2.2.dropWhile Char.isWhitespace with
        | '-' :: r7 =>
          let r8 := r7.dropWhile Char.isWhitespace
          let p3 := r8.span Char.isDigit
          if p3.1.isEmpty then none
          else
            match p3.2 with
            | '.' :: a :: b :: r10 =>
              if a.isDigit && b.isDigit then
                some ((String.mk p1.1, String.mk p2.1,
                       String.mk (p3.1 ++ ['.', a, b])), r10)
              else none
            | _ => none
        | _ => none
    | _ => none

/-- `re.findall` scan for the triple pattern: try a match at each position,
resuming after a match's end, else advancing one character. Fuel bounds the
scan; one unit per consumed character suffices. -/
def findTriplesAux : Nat → List Char → List (String × String × String)
  | 0, _ => []
  | _ + 1, [] => []
  | fuel + 1, c :: cs =>
    match matchTripleAt (c :: cs) with
    | some (t, rest) => t :: findTriplesAux fuel rest
    | none => findTriplesAux fuel cs

/-- `re.findall(r"(\d+)\s*-\s*(\d+)\s*-\s*(\d+\.\d{2})", text)` (csvcont.py:222). -/
def findTriples (text : String) : List (String × String × String) :=
  findTriplesAux text.data.length text.data

/-- The 0-based slot a historical triple addresses: `int(sem_num_str) - 1`
when that lies in `[0, 8)`, otherwise none (csvcont.py:225-226). -/
def semIdxOf (t : String × String × String) : Option Nat :=
  let i : Int := (charsToNat t.1.data : Int) - 1
  if 0 ≤ i ∧ i < 8 then some i.toNat else none

/-- One iteration of the historical loop (csvcont.py:223-229): an in-range
semester number overwrites its slot with `(set_no, sgpa)`; anything else
leaves the array unchanged. -/
def updateSem (sem : List (String × String)) (t : String × String × String) :
    List (String × String) :=
  match semIdxOf t with
  | some i => sem.set i (t.2.1, t.2.2)
  | none => sem

/-- The 8-slot historical array a block's text yields (csvcont.py:219-229). -/
def semDataOf (text : String) : List (String × String) :=
  (findTriples text).foldl updateSem (List.replicate 8 ("", ""))

/-- The identity cells `row = [seat_no, spid, gender]` (csvcont.py:96-99,128). -/
def headerCells (block : List String) : List Cell :=
  [Cell.str ((blockTokens block).getD 0 ""),
   Cell.str ((blockTokens block).getD 1 ""),
   Cell.str ((blockTokens block).getD 2 "")]

/-- The zeroed loop locals of csvcont.py:129-134. -/
def initState : SubjState :=
  { intPtr := 0, extPtr := 0, totPtr := 0, subjectCount := 0,
    anyFailed := false, grandInt := 0, grandExt := 0 }

/-- The two subject loops of csvcont.py:129-208 started from zeroed locals:
`P` practical iterations then `T - P` theory iterations over the
`(ext, int, total)` sections, returning each subject's row segment and the
final locals. -/
def subjectPasses (T P : Nat)
    (sections : List String × List String × List String) :
    List (List Cell) × SubjState :=
  ((runSteps (practicalStep sections.2.1 sections.1 sections.2.2) P initState).1 ++
     (runSteps (theoryStep sections.2.1 sections.1 sections.2.2) (T - P)
       (runSteps (practicalStep sections.2.1 sections.1 sections.2.2) P initState).2).1,
   (runSteps (theoryStep sections.2.1 sections.1 sections.2.2) (T - P)
     (runSteps (practicalStep sections.2.1 sections.1 sections.2.2) P initState).2).2)

/-- The per-subject row segments a block produces, practical pass first. -/
def blockSubjectRows (T P : Nat) (block : List String) : List (List Cell) :=
  (subjectPasses T P (sectionsOfBlock block)).1

/-- The subject-loop locals after both passes over a block. -/
def blockFinalState (T P : Nat) (block : List String) : SubjState :=
  (subjectPasses T P (sectionsOfBlock block)).2

/-- The 16 trailing historical cells (csvcont.py:231-234): each semester
slot contributes its set-number then its SGPA. -/
def semCellsOf (block : List String) : List Cell :=
  ((semDataOf (pyJoinSpace block)).map
    (fun p => [Cell.str p.1, Cell.str p.2])).flatten

/-- `ResultParser.parse_student_block` (csvcont.py:89-236) for a parser
configured with `T` total and `P` practical subjects: fewer than 4 tokens
yield no record; otherwise identity cells, the subject segments in
processing order, grand totals with the overall result, and the historical
cells. -/
def parse_student_block (T P : Nat) (block : List String) : Option (List Cell) :=
  if (blockTokens block).length < 4 then none
  else
    let stF := blockFinalState T P block
    some (headerCells block
      ++ (blockSubjectRows T P block).flatten
      ++ [Cell.int stF.grandInt, Cell.int stF.grandExt,
          Cell.int (stF.grandInt + stF.grandExt),
          Cell.str (if stF.anyFailed then "Fail" else "Pass")]
      ++ semCellsOf block)

/-- `ResultParser.build_column_names` (csvcont.py:238-260). -/
def build_column_names (T P : Nat) : List String :=
  ["SeatNo", "SPID", "Gender"]
  ++ ((List.range' 1 P).map (fun i =>
        [s!"SUB{i}_TH_INT", s!"SUB{i}_TH_EXT",
         s!"SUB{i}_PR_INT", s!"SUB{i}_PR_EXT",
         s!"SUB{i}_TH_PR_SUM", s!"SUB{i}_TOTAL", s!"SUB{i}_GRADE"])).flatten
  ++ ((List.range' (P + 1) (T - P)).map (fun i =>
        [s!"SUB{i}_TH_INT", s!"SUB{i}_TH_EXT",
         s!"SUB{i}_TOTAL", s!"SUB{i}_GRADE"])).flatten
  ++ ["GRAND_INT", "GRAND_EXT", "GRAND_TOTAL", "RESULT"]
  ++ ((List.range' 1 8).map (fun i => [s!"SEM{i}_SETNO", s!"SEM{i}_SGPA"])).flatten

/-- The block-boundary test of csvcont.py:278:
`re.match(r"^\d{4,}\s+\d{10,}", line.strip())`. Each greedy run is followed
by a requirement its own character class cannot satisfy, so maximal runs are
the unique candidates. -/
def isBoundary (line : String) : Bool :=
  let cs := stripList line.data
  let p1 := cs.span Char.isDigit
  let p2 := p1.2.span Char.isWhitespace
  let p3 := p2.2.span Char.isDigit
  decide (4 ≤ p1.1.length) && decide (1 ≤ p2.1.length) && decide (10 ≤ p3.1.length)

/-- The segmentation loop of `ResultParser.process` (csvcont.py:268-294):
a boundary line closes the open block (if any) and starts a new one;
other lines extend the open block and are dropped when no block is open;
the still-open block is closed at end of input. -/
def segmentAux : List String → List String → List (List String)
  | [], cur => if cur.isEmpty then [] else [cur]
  | line :: rest, cur =>
    if isBoundary line then
      (if cur.isEmpty then [] else [cur]) ++ segmentAux rest [line]
    else
      segmentAux rest (if cur.isEmpty then cur else cur ++ [line])

/-- The blocks `ResultParser.process` hands to `parse_student_block`,
in order. -/
def segmentBlocks (lines : List String) : List (List String) :=
  segmentAux lines []

/-- Models the metadata merge of `ResultParser.process` (csvcont.py:298-319):
both SPID key columns are `str.strip`ped, then `pd.merge(..., on='SPID',
how='left')` joins each parsed row with every matching metadata record,
keeping unmatched rows with absent (`none`) metadata. -/
def mergeMetadata (rows : List (String × List String))
    (meta : List (String × List String)) :
    List (String × List String × Option (List String)) :=
  let rows := rows.map (fun r => (pyStrip r.1, r.2))
  let meta := meta.map (fun m => (pyStrip m.1, m.2))
  rows.foldr
    (fun r acc =>
      let ms := meta.filter (fun m => m.1 == r.1)
      (if ms.isEmpty then [(r.1, r.2, none)]
       else ms.map (fun m => (r.1, r.2, some m.2))) ++ acc) []

example : normalize " zero " = "0" := by decide
example : normalize "" = "0" := by decide
example : normalize " 7 " = "7" := by decide
example : to_numeric "20+10" = 30 := by decide
example : to_numeric "12+ab+3" = 15 := by decide
example : to_numeric "abc" = 0 := by decide
example : to_numeric "" = 0 := by decide
example : to_numeric "42" = 42 := by decide
example : clean_section_tokens ["28", "+", "12"] = ["28+12"] := by decide
example : clean_section_tokens ["a", "+", "+", "b"] = ["a++b"] := by decide
example : get_grade 18 50 = "Pass" := by decide
example : get_grade 25 100 = "Fail" := by decide

/-- A block in the 6-subject / 4-practical layout whose 6th subject TOTAL
is 18: INT and EXT carry `(theory, practical, subtotal)` triples for the four
practical subjects then one theory component each for the two theory
subjects. -/
def demoBlock : List String :=
  ["1234 1234567890 M JOHN DOE",
   "INT 20 8 28 30 9 39 17 9 26 25 10 35 40 38",
   "EXT 30 12 42 20 11 31 25 14 39 10 8 18 30 28",
   "TOTAL 70 50 35 30 25 18"]

example : (blockTokens demoBlock).length = 42 := by decide
example : (sectionsOfBlock demoBlock).2.2 = ["70", "50", "35", "30", "25", "18"] := by decide
example : (sectionsOfBlock demoBlock).2.1.length = 14 := by decide
example :
    ((parse_student_block 6 4 demoBlock).getD []).getD 38 (Cell.str "") =
      Cell.str "Pass" := by decide
example :
    ((parse_student_block 6 4 demoBlock).getD []).getD 34 (Cell.str "") =
      Cell.str "Fail" := by decide
example : ((parse_student_block 6 4 demoBlock).getD []).length = 59 := by decide
example : (build_column_names 6 4).length = 59 := by decide
example : isBoundary "1234 1234567890 M JOHN" = true := by decide
example : isBoundary "INT 20 8 28" = false := by decide
example :
    segmentBlocks ["junk", "1234 1234567890 X", "a", "12345 0123456789 Y"] =
      [["1234 1234567890 X", "a"], ["12345 0123456789 Y"]] := by decide
example :
    findTriples "x 3 - 10068 - 6.55 y 3 - 99999 - 7.10 z" =
      [("3", "10068", "6.55"), ("3", "99999", "7.10")] := by decide
example :
    (semDataOf "x 3 - 10068 - 6.55 y 3 - 99999 - 7.10 z").getD 2 ("", "") =
      ("99999", "7.10") := by decide
example :
    mergeMetadata [(" 11111 ", ["r"])] [("11111", ["S100", "General"])] =
      [("11111", ["r"], some ["S100", "General"])] := by decide

/-! ### Helper lemmas -/

theorem foldlM_digits_ok (xs : List String) (a : Int) :
    xs.foldlM
      (fun a x =>
        if pyIsDigitStr (pyStrip x) then (pyIntParse (pyStrip x)).map (fun n => a + n)
        else Except.ok a) a
      = Except.ok (xs.foldl
          (fun a x => if pyIsDigitStr (pyStrip x) then a + pyInt (pyStrip x) else a) a) := by
  induction xs generalizing a with
  | nil => rfl
  | cons x xs ih =>
    simp only [List.foldlM_cons, List.foldl_cons]
    by_cases h : pyIsDigitStr (pyStrip x)
    · simp only [h, if_true, pyIntParse, Except.map, Except.bind]
      exact ih (a + pyInt (pyStrip x))
    · simp only [h, if_false, Except.bind]
      exact ih a

/-- Ranking of the grade ladder: Fail < Pass < Second < First < Distinction. -/
def gradeRank (g : String) : Nat :=
  if g = "Fail" then 0
  else if g = "Pass" then 1
  else if g = "Second" then 2
  else if g = "First" then 3
  else 4

/-! ### Claim theorems -/

/-- Claim C2: `to_numeric` is total — the exception-explicit model returns
`Except.ok` of the pure value on every string input, and a non-`+` value
that fails the digit test degrades to zero. -/
theorem to_numeric_total :
    (∀ v : String, to_numericE v = Except.ok (to_numeric v)) ∧
    (∀ v : String, (normalize v).data.contains '+' = false →
      pyIsDigitStr (normalize v) = false → to_numeric v = 0) := by
  constructor
  · intro v
    unfold to_numericE to_numeric sumDigitsE
    by_cases h1 : (normalize v).data.contains '+'
    · simp only [h1, if_true, foldlM_digits_ok]
    · simp only [h1, if_false]
      by_cases h2 : pyIsDigitStr (normalize v)
      · simp [h2, pyIntParse]
      · simp [h2]
  · intro v h1 h2
    unfold to_numeric
    simp only [h1, h2, Bool.false_eq_true, if_false]

/-- Claim C2 witness. -/
theorem to_numeric_total_witness :
    to_numericE "12+ab+3" = Except.ok (to_numeric "12+ab+3") ∧ to_numeric "abc" = 0 :=
  ⟨to_numeric_total.1 "12+ab+3", to_numeric_total.2 "abc" (by decide) (by decide)⟩

/-- Claim C3: on each of the two scales, `get_grade` is monotonically
non-decreasing in the marks under the Fail < Pass < Second < First <
Distinction order, and grades `"Fail"` exactly below the scale's lowest
non-fail threshold (18 on the 50 scale, 35 on the 100 scale). -/
theorem get_grade_monotone_fail_iff (s : Nat) (hs : s = 50 ∨ s = 100) :
    (∀ m m' : Int, m ≤ m' →
      gradeRank (get_grade m s) ≤ gradeRank (get_grade m' s)) ∧
    (∀ m : Int, get_grade m s = "Fail" ↔ m < if s = 50 then 18 else 35) := by
  rcases hs with rfl | rfl
  · constructor
    · intro m m' hmm
      unfold get_grade
      split_ifs <;> first | omega | decide
    · intro m
      unfold get_grade
      split_ifs <;> constructor <;> intro hc <;>
        first | (exact absurd hc (by decide)) | omega | rfl
  · constructor
    · intro m m' hmm
      unfold get_grade
      split_ifs <;> first | omega | decide
    · intro m
      unfold get_grade
      split_ifs <;> constructor <;> intro hc <;>
        first | (exact absurd hc (by decide)) | omega | rfl

/-- Claim C3 witness. -/
theorem get_grade_monotone_fail_iff_witness :
    gradeRank (get_grade 20 50) ≤ gradeRank (get_grade 30 50) ∧
      (get_grade 10 50 = "Fail" ↔ (10 : Int) < if (50 : Nat) = 50 then 18 else 35) :=
  ⟨(get_grade_monotone_fail_iff 50 (Or.inl rfl)).1 20 30 (by decide),
   (get_grade_monotone_fail_iff 50 (Or.inl rfl)).2 10⟩

/-- The row `parse_student_block` yields on `demoBlock` in the 6-subject /
4-practical configuration. -/
def demoRow : List Cell :=
  (parse_student_block 6 4 demoBlock).getD []

/-- Claim C1: each subject step grades its TOTAL token on the 50-mark scale
exactly when it is the 6th processed subject (both passes increment the
shared count by one, the practical pass running first), and on the
6-subject / 4-practical demo block — whose 6th TOTAL token is "18" — the
6th subject's grade cell is "Pass" while the 5th subject's TOTAL of 25 is
graded "Fail" on the 100-mark scale. -/
theorem sixth_subject_fifty_scale :
    (∀ (intToks extToks totToks : List String) (st : SubjState),
      (practicalStep intToks extToks totToks st).1.getD 6 (Cell.str "") =
        Cell.str (get_grade (totalAt totToks st.totPtr)
          (if st.subjectCount + 1 = 6 then 50 else 100)) ∧
      (theoryStep intToks extToks totToks st).1.getD 3 (Cell.str "") =
        Cell.str (get_grade (totalAt totToks st.totPtr)
          (if st.subjectCount + 1 = 6 then 50 else 100)) ∧
      (practicalStep intToks extToks totToks st).2.subjectCount = st.subjectCount + 1 ∧
      (theoryStep intToks extToks totToks st).2.subjectCount = st.subjectCount + 1) ∧
    (sectionsOfBlock demoBlock).2.2.getD 5 "" = "18" ∧
    demoRow.getD 38 (Cell.str "") = Cell.str "Pass" ∧
    (sectionsOfBlock demoBlock).2.2.getD 4 "" = "25" ∧
    demoRow.getD 34 (Cell.str "") = Cell.str "Fail" :=
  ⟨fun _ _ _ _ => ⟨rfl, rfl, rfl, rfl⟩, by decide, by decide, by decide, by decide⟩

theorem flatten_map_len {α β : Type} (f : α → List β) (k : Nat)
    (h : ∀ x, (f x).length = k) :
    ∀ l : List α, ((l.map f).flatten).length = k * l.length := by
  intro l
  induction l with
  | nil => simp
  | cons x xs ih =>
    simp only [List.map_cons, List.flatten_cons, List.length_append, h x, ih,
      List.length_cons, Nat.mul_succ]
    omega

theorem runSteps_flatten_len (step : SubjState → List Cell × SubjState) (k : Nat)
    (h : ∀ st, ((step st).1).length = k) :
    ∀ (n : Nat) (st : SubjState),
      ((runSteps step n st).1.flatten).length = k * n := by
  intro n
  induction n with
  | zero => intro st; simp [runSteps]
  | succ n ih =>
    intro st
    simp only [runSteps, List.flatten_cons, List.length_append, h st, ih ((step st).2),
      Nat.mul_succ]
    omega

theorem updateSem_length (sem : List (String × String)) (t : String × String × String) :
    (updateSem sem t).length = sem.length := by
  unfold updateSem
  cases semIdxOf t <;> simp

theorem foldl_updateSem_length (ts : List (String × String × String)) :
    ∀ acc : List (String × String), (ts.foldl updateSem acc).length = acc.length := by
  induction ts with
  | nil => intro acc; rfl
  | cons t ts ih => intro acc; rw [List.foldl_cons, ih, updateSem_length]

theorem semDataOf_length (text : String) : (semDataOf text).length = 8 := by
  unfold semDataOf
  rw [foldl_updateSem_length]
  rfl

theorem semCellsOf_length (block : List String) : (semCellsOf block).length = 16 := by
  unfold semCellsOf
  rw [flatten_map_len (fun p : String × String => [Cell.str p.1, Cell.str p.2]) 2
    (fun _ => rfl), semDataOf_length]

theorem runSteps_prac_flatten_len (i e t : List String) (n : Nat) (st : SubjState) :
    ((runSteps (practicalStep i e t) n st).1.flatten).length = 7 * n :=
  runSteps_flatten_len (practicalStep i e t) 7 (fun _ => rfl) n st

theorem runSteps_theo_flatten_len (i e t : List String) (n : Nat) (st : SubjState) :
    ((runSteps (theoryStep i e t) n st).1.flatten).length = 4 * n :=
  runSteps_flatten_len (theoryStep i e t) 4 (fun _ => rfl) n st

theorem blockSubjectRows_flatten_length (T P : Nat) (block : List String) :
    ((blockSubjectRows T P block).flatten).length = 7 * P + 4 * (T - P) := by
  unfold blockSubjectRows subjectPasses
  rw [List.flatten_append, List.length_append,
    runSteps_prac_flatten_len, runSteps_theo_flatten_len]

theorem build_column_names_length (T P : Nat) :
    (build_column_names T P).length = 3 + 7 * P + 4 * (T - P) + 4 + 16 := by
  unfold build_column_names
  rw [List.length_append, List.length_append, List.length_append, List.length_append,
    flatten_map_len (fun i : Nat =>
      ([s!"SUB{i}_TH_INT", s!"SUB{i}_TH_EXT",
        s!"SUB{i}_PR_INT", s!"SUB{i}_PR_EXT",
        s!"SUB{i}_TH_PR_SUM", s!"SUB{i}_TOTAL", s!"SUB{i}_GRADE"] : List String)) 7
      (fun _ => rfl),
    flatten_map_len (fun i : Nat =>
      ([s!"SUB{i}_TH_INT", s!"SUB{i}_TH_EXT",
        s!"SUB{i}_TOTAL", s!"SUB{i}_GRADE"] : List String)) 4 (fun _ => rfl),
    flatten_map_len (fun i : Nat =>
      ([s!"SEM{i}_SETNO", s!"SEM{i}_SGPA"] : List String)) 2 (fun _ => rfl)]
  simp only [List.length_range', List.length_cons, List.length_nil]

theorem parse_eq_of_some (T P : Nat) (block : List String) (row : List Cell)
    (h : parse_student_block T P block = some row) :
    row = headerCells block ++ (blockSubjectRows T P block).flatten ++
      [Cell.int (blockFinalState T P block).grandInt,
       Cell.int (blockFinalState T P block).grandExt,
       Cell.int ((blockFinalState T P block).grandInt + (blockFinalState T P block).grandExt),
       Cell.str (if (blockFinalState T P block).anyFailed then "Fail" else "Pass")] ++
      semCellsOf block := by
  unfold parse_student_block at h
  split at h
  · simp at h
  · exact (Option.some.inj h).symm

/-- Claim C10: a successfully parsed row has exactly
`3 + 7·P + 4·(T−P) + 4 + 16` cells — the length of the generated
column-name list — so every parsed row fits the output table schema. -/
theorem row_matches_schema (T P : Nat) (block : List String) (row : List Cell)
    (_hP : P ≤ T) (h : parse_student_block T P block = some row) :
    row.length = 3 + 7 * P + 4 * (T - P) + 4 + 16 ∧
    row.length = (build_column_names T P).length := by
  have hrow := parse_eq_of_some T P block row h
  have hlen : row.length = 3 + 7 * P + 4 * (T - P) + 4 + 16 := by
    rw [hrow]
    simp only [List.length_append, headerCells, List.length_cons, List.length_nil,
      blockSubjectRows_flatten_length, semCellsOf_length]
    omega
  exact ⟨hlen, by rw [build_column_names_length]; exact hlen⟩

/-- Claim C10 witness. -/
theorem row_matches_schema_witness :
    demoRow.length = 3 + 7 * 4 + 4 * (6 - 4) + 4 + 16 ∧
    demoRow.length = (build_column_names 6 4).length :=
  row_matches_schema 6 4 demoBlock demoRow (by decide) (by decide)

theorem segmentAux_open (lines : List String) :
    ∀ cur : List String, cur.isEmpty = false →
      (segmentAux lines cur).map (fun b => b.headD "") =
        cur.headD "" :: lines.filter isBoundary ∧
      (segmentAux lines cur).flatten = cur ++ lines := by
  induction lines with
  | nil =>
    intro cur hcur
    simp [segmentAux, hcur]
  | cons line rest ih =>
    intro cur hcur
    by_cases hb : isBoundary line
    · have hrec := ih [line] rfl
      simp only [segmentAux, hb, if_true, hcur, Bool.false_eq_true, if_false]
      constructor
      · simp only [List.map_append, List.map_cons, List.map_nil, hrec.1,
          List.filter_cons, hb]
        rfl
      · simp only [List.flatten_append, hrec.2, List.flatten_cons, List.flatten_nil]
        simp
    · have hne : (cur ++ [line]).isEmpty = false := by
        cases cur <;> simp_all
      have hrec := ih (cur ++ [line]) hne
      have hhead : (cur ++ [line]).headD "" = cur.headD "" := by
        cases cur with
        | nil => simp at hcur
        | cons a as => rfl
      simp only [segmentAux, hb, Bool.false_eq_true, if_false, hcur]
      rw [List.filter_cons]
      simp only [hb, Bool.false_eq_true, if_false]
      refine ⟨by rw [hrec.1, hhead], by rw [hrec.2, List.append_assoc]; rfl⟩

theorem segmentBlocks_spec (lines : List String) :
    (segmentBlocks lines).map (fun b => b.headD "") = lines.filter isBoundary ∧
    (segmentBlocks lines).flatten = lines.dropWhile (fun l => !isBoundary l) := by
  unfold segmentBlocks
  induction lines with
  | nil => exact ⟨rfl, rfl⟩
  | cons line rest ih =>
    by_cases hb : isBoundary line
    · have hrec := segmentAux_open rest [line] rfl
      simp only [segmentAux, hb, if_true, List.isEmpty_nil, List.nil_append]
      rw [List.filter_cons, List.dropWhile_cons]
      simp only [hb, Bool.not_true, Bool.false_eq_true, if_false, if_true]
      exact ⟨by rw [hrec.1]; rfl, by rw [hrec.2]; rfl⟩
    · simp only [segmentAux, hb, Bool.false_eq_true, if_false, List.isEmpty_nil, if_true]
      rw [List.filter_cons, List.dropWhile_cons]
      simp only [hb, Bool.not_false, Bool.false_eq_true, if_false, if_true]
      exact ih

/-- Claim C4: the segmenter produces one block per boundary line — the blocks'
first lines are exactly the boundary lines in order (so with N boundary lines
there are exactly N blocks), every line from the first boundary on belongs to
some block, and the lines before the first boundary belong to none. -/
theorem segmenter_one_block_per_boundary (lines : List String) :
    (segmentBlocks lines).map (fun b => b.headD "") = lines.filter isBoundary ∧
    (segmentBlocks lines).length = (lines.filter isBoundary).length ∧
    (segmentBlocks lines).flatten = lines.dropWhile (fun l => !isBoundary l) := by
  refine ⟨(segmentBlocks_spec lines).1, ?_, (segmentBlocks_spec lines).2⟩
  rw [← (segmentBlocks_spec lines).1, List.length_map]

/-- Numeric value of a row cell: string cells through `to_numeric`,
int cells as themselves. -/
def cellNum : Cell → Int
  | Cell.str s => to_numeric s
  | Cell.int n => n

/-- The internal marks a subject's row segment contributed to `grand_int`:
practical segments (7 cells) carry theory-internal at 0 and
practical-internal at 2; theory segments carry theory-internal at 0. -/
def rowInternalSum (r : List Cell) : Int :=
  if r.length = 7 then
    cellNum (r.getD 0 (Cell.str "0")) + cellNum (r.getD 2 (Cell.str "0"))
  else cellNum (r.getD 0 (Cell.str "0"))

/-- The external marks a subject's row segment contributed to `grand_ext`:
practical segments carry theory-external at 1 and practical-external at 3;
theory segments carry theory-external at 1. -/
def rowExternalSum (r : List Cell) : Int :=
  if r.length = 7 then
    cellNum (r.getD 1 (Cell.str "0")) + cellNum (r.getD 3 (Cell.str "0"))
  else cellNum (r.getD 1 (Cell.str "0"))

/-- Whether a subject's row segment was graded `"Fail"` — the grade is the
last cell of both segment shapes. -/
def rowFailed (r : List Cell) : Bool :=
  r.getLast? == some (Cell.str "Fail")

theorem runSteps_invariants (step : SubjState → List Cell × SubjState)
    (hI : ∀ st, (step st).2.grandInt = st.grandInt + rowInternalSum (step st).1)
    (hE : ∀ st, (step st).2.grandExt = st.grandExt + rowExternalSum (step st).1)
    (hF : ∀ st, (step st).2.anyFailed = (st.anyFailed || rowFailed (step st).1)) :
    ∀ (n : Nat) (st : SubjState),
      (runSteps step n st).2.grandInt =
        st.grandInt + ((runSteps step n st).1.map rowInternalSum).sum ∧
      (runSteps step n st).2.grandExt =
        st.grandExt + ((runSteps step n st).1.map rowExternalSum).sum ∧
      (runSteps step n st).2.anyFailed =
        (st.anyFailed || (runSteps step n st).1.any rowFailed) := by
  intro n
  induction n with
  | zero => intro st; simp [runSteps]
  | succ n ih =>
    intro st
    have h2 := ih ((step st).2)
    simp only [runSteps, List.map_cons, List.sum_cons, List.any_cons]
    refine ⟨?_, ?_, ?_⟩
    · rw [h2.1, hI st]; omega
    · rw [h2.2.1, hE st]; omega
    · rw [h2.2.2, hF st, Bool.or_assoc]

theorem subjectPasses_spec (T P : Nat) (s : List String × List String × List String) :
    (subjectPasses T P s).2.grandInt =
      (((subjectPasses T P s).1).map rowInternalSum).sum ∧
    (subjectPasses T P s).2.grandExt =
      (((subjectPasses T P s).1).map rowExternalSum).sum ∧
    (subjectPasses T P s).2.anyFailed = ((subjectPasses T P s).1).any rowFailed := by
  unfold subjectPasses
  have A := runSteps_invariants (practicalStep s.2.1 s.1 s.2.2)
    (fun _ => rfl) (fun _ => rfl) (fun _ => rfl) P initState
  have B := runSteps_invariants (theoryStep s.2.1 s.1 s.2.2)
    (fun _ => rfl) (fun _ => rfl) (fun _ => rfl) (T - P)
    (runSteps (practicalStep s.2.1 s.1 s.2.2) P initState).2
  simp only [List.map_append, List.sum_append, List.any_append]
  refine ⟨?_, ?_, ?_⟩
  · rw [B.1, A.1]; simp only [initState]; omega
  · rw [B.2.1, A.2.1]; simp only [initState]; omega
  · rw [B.2.2, A.2.2]; simp [initState]

/-- Claim C8: a successfully parsed row is the identity cells, the subject
segments, then grand totals that are exactly the sum of the accumulated
internal components, the sum of the accumulated external components, and
their sum, then the overall result — `"Fail"` iff some subject's grade cell
is `"Fail"`, else `"Pass"` — then the historical cells. -/
theorem result_and_grand_totals (T P : Nat) (block : List String) (row : List Cell)
    (h : parse_student_block T P block = some row) :
    row = headerCells block ++ (blockSubjectRows T P block).flatten ++
      [Cell.int (((blockSubjectRows T P block).map rowInternalSum).sum),
       Cell.int (((blockSubjectRows T P block).map rowExternalSum).sum),
       Cell.int (((blockSubjectRows T P block).map rowInternalSum).sum +
                 ((blockSubjectRows T P block).map rowExternalSum).sum),
       Cell.str (if (blockSubjectRows T P block).any rowFailed then "Fail" else "Pass")] ++
      semCellsOf block := by
  have hrow := parse_eq_of_some T P block row h
  have hs := subjectPasses_spec T P (sectionsOfBlock block)
  rw [hrow]
  unfold blockFinalState blockSubjectRows
  rw [hs.1, hs.2.1, hs.2.2]

/-- Claim C8 witness. -/
theorem result_and_grand_totals_witness :
    demoRow = headerCells demoBlock ++ (blockSubjectRows 6 4 demoBlock).flatten ++
      [Cell.int (((blockSubjectRows 6 4 demoBlock).map rowInternalSum).sum),
       Cell.int (((blockSubjectRows 6 4 demoBlock).map rowExternalSum).sum),
       Cell.int (((blockSubjectRows 6 4 demoBlock).map rowInternalSum).sum +
                 ((blockSubjectRows 6 4 demoBlock).map rowExternalSum).sum),
       Cell.str (if (blockSubjectRows 6 4 demoBlock).any rowFailed then "Fail" else "Pass")] ++
      semCellsOf demoBlock :=
  result_and_grand_totals 6 4 demoBlock demoRow (by decide)

example : (blockFinalState 6 4 demoBlock).grandInt = 206 := by decide
example : (blockFinalState 6 4 demoBlock).grandExt = 188 := by decide
example : (blockFinalState 6 4 demoBlock).anyFailed = true := by decide
example : demoRow.getD 42 (Cell.str "") = Cell.str "Fail" := by decide

theorem mem_insertByIdx {x y : Nat × String} :
    ∀ {l : List (Nat × String)}, y ∈ insertByIdx x l → y = x ∨ y ∈ l := by
  intro l
  induction l with
  | nil => intro h; simp [insertByIdx] at h; exact Or.inl h
  | cons a as ih =>
    intro h
    simp only [insertByIdx] at h
    split_ifs at h
    · rcases List.mem_cons.mp h with h | h
      · exact Or.inl h
      · exact Or.inr h
    · rcases List.mem_cons.mp h with h | h
      · exact Or.inr (h ▸ List.mem_cons_self a as)
      · rcases ih h with h | h
        · exact Or.inl h
        · exact Or.inr (List.mem_cons_of_mem a h)

theorem mem_sortByIdx {y : Nat × String} :
    ∀ {l : List (Nat × String)}, y ∈ sortByIdx l → y ∈ l := by
  intro l
  induction l with
  | nil => intro h; exact h
  | cons a as ih =>
    intro h
    rcases mem_insertByIdx h with h | h
    · exact h ▸ List.mem_cons_self a as
    · exact List.mem_cons_of_mem a (ih h)

theorem findIdx?_aux_none (a : String) :
    ∀ l : List String, l.contains a = false →
      ∀ i : Nat, l.findIdx? (fun t => t == a) i = none := by
  intro l
  induction l with
  | nil => intro _ i; rfl
  | cons x xs ih =>
    intro h i
    simp only [List.contains_cons, Bool.or_eq_false_iff] at h
    have hx : (x == a) = false :=
      beq_eq_false_iff_ne.mpr fun hxa => beq_eq_false_iff_ne.mp h.1 hxa.symm
    rw [List.findIdx?_cons, hx]
    simp only [Bool.false_eq_true, if_false]
    exact ih h.2 (i + 1)

theorem findIdx?_eq_none_of_contains_false (l : List String) (a : String)
    (h : l.contains a = false) : l.findIdx? (fun t => t == a) = none :=
  findIdx?_aux_none a l h 0

theorem foundMarkers_no_ext (tokens : List String)
    (h : tokens.findIdx? (fun t => t == "EXT") = none) :
    ∀ p ∈ foundMarkers tokens, p.2 ≠ "EXT" := by
  intro p hp
  unfold foundMarkers at hp
  cases hI : tokens.findIdx? (fun t => t == "INT") <;>
    cases hT : tokens.findIdx? (fun t => t == "TOTAL") <;>
      simp [h, hI, hT] at hp
  all_goals try (rcases hp with hp | hp)
  all_goals try (rw [hp])
  all_goals
    first
    | exact (by decide : ("INT" : String) ≠ "EXT")
    | exact (by decide : ("TOTAL" : String) ≠ "EXT")

theorem buildSections_ext_nil (tokens : List String) :
    ∀ entries : List (Nat × String),
      (∀ p ∈ entries, p.2 ≠ "EXT") → (buildSections tokens entries).1 = [] := by
  intro entries
  induction entries with
  | nil => intro _; rfl
  | cons e rest ih =>
    intro h
    obtain ⟨start, kw⟩ := e
    have hkw : kw ≠ "EXT" := h (start, kw) (List.mem_cons_self _ _)
    have hrest := ih (fun p hp => h p (List.mem_cons_of_mem _ hp))
    simp only [buildSections, hkw, if_false]
    split_ifs <;> simpa using hrest

theorem runSteps_pred (step : SubjState → List Cell × SubjState)
    (Pr : List Cell → Prop) (h : ∀ st, Pr (step st).1) :
    ∀ (n : Nat) (st : SubjState) (r : List Cell),
      r ∈ (runSteps step n st).1 → Pr r := by
  intro n
  induction n with
  | zero => intro st r hr; simp [runSteps] at hr
  | succ n ih =>
    intro st r hr
    simp only [runSteps, List.mem_cons] at hr
    rcases hr with rfl | hr
    · exact h st
    · exact ih _ _ hr

theorem runSteps_grandExt_const (step : SubjState → List Cell × SubjState)
    (h : ∀ st, (step st).2.grandExt = st.grandExt) :
    ∀ (n : Nat) (st : SubjState), (runSteps step n st).2.grandExt = st.grandExt := by
  intro n
  induction n with
  | zero => intro st; rfl
  | succ n ih => intro st; simp only [runSteps]; rw [ih, h]

theorem practicalStep_ext_props (i t : List String) (st : SubjState) :
    (practicalStep i [] t st).1.getD 1 (Cell.str "") = Cell.str "0" ∧
    rowExternalSum (practicalStep i [] t st).1 = 0 ∧
    (practicalStep i [] t st).2.grandExt = st.grandExt := by
  have h0 : ∀ p : Nat, getTok ([] : List String) p = "0" := by
    intro p; simp [getTok]
  have hz : to_numeric "0" = 0 := by decide
  refine ⟨?_, ?_, ?_⟩
  · simp [practicalStep, h0]
  · simp [practicalStep, rowExternalSum, cellNum, h0, hz]
  · simp [practicalStep, h0, hz]

theorem theoryStep_ext_props (i t : List String) (st : SubjState) :
    (theoryStep i [] t st).1.getD 1 (Cell.str "") = Cell.str "0" ∧
    rowExternalSum (theoryStep i [] t st).1 = 0 ∧
    (theoryStep i [] t st).2.grandExt = st.grandExt := by
  have h0 : ∀ p : Nat, getTok ([] : List String) p = "0" := by
    intro p; simp [getTok]
  have hz : to_numeric "0" = 0 := by decide
  refine ⟨?_, ?_, ?_⟩
  · simp [theoryStep, h0]
  · simp [theoryStep, rowExternalSum, cellNum, h0, hz]
  · simp [theoryStep, h0, hz]

theorem subjectPasses_ext_nil (T P : Nat) (i t : List String) :
    (∀ r ∈ (subjectPasses T P ([], i, t)).1,
      r.getD 1 (Cell.str "") = Cell.str "0" ∧ rowExternalSum r = 0) ∧
    (subjectPasses T P ([], i, t)).2.grandExt = 0 := by
  constructor
  · intro r hr
    rcases List.mem_append.mp hr with h | h
    · exact runSteps_pred _
        (fun r => r.getD 1 (Cell.str "") = Cell.str "0" ∧ rowExternalSum r = 0)
        (fun st => ⟨(practicalStep_ext_props i t st).1, (practicalStep_ext_props i t st).2.1⟩)
        _ _ _ h
    · exact runSteps_pred _
        (fun r => r.getD 1 (Cell.str "") = Cell.str "0" ∧ rowExternalSum r = 0)
        (fun st => ⟨(theoryStep_ext_props i t st).1, (theoryStep_ext_props i t st).2.1⟩)
        _ _ _ h
  · show (runSteps (theoryStep i [] t) _ _).2.grandExt = 0
    rw [runSteps_grandExt_const _ (fun st => (theoryStep_ext_props i t st).2.2),
      runSteps_grandExt_const _ (fun st => (practicalStep_ext_props i t st).2.2)]
    rfl

/-- Claim C5: with `INT` and `TOTAL` markers but no `EXT` marker, the EXT
section is the empty token list and no error results; every out-of-range
pointer access yields the `"0"` / numeric-0 default; and every EXT-sourced
field of the subject rows is `"0"` with the accumulated external grand
total equal to 0. -/
theorem no_ext_marker_defaults (T P : Nat) (block : List String)
    (hext : (blockTokens block).contains "EXT" = false) :
    (sectionsOfBlock block).1 = [] ∧
    (∀ (ts : List String) (p : Nat), ts.length ≤ p →
      getTok ts p = "0" ∧ totalAt ts p = 0) ∧
    (∀ r ∈ blockSubjectRows T P block,
      r.getD 1 (Cell.str "") = Cell.str "0" ∧ rowExternalSum r = 0) ∧
    (blockFinalState T P block).grandExt = 0 := by
  have hnone := findIdx?_eq_none_of_contains_false _ _ hext
  have hsec : (sectionsOfBlock block).1 = [] := by
    unfold sectionsOfBlock
    exact buildSections_ext_nil _ _
      (fun p hp => foundMarkers_no_ext _ hnone p (mem_sortByIdx hp))
  have hS : sectionsOfBlock block =
      ([], (sectionsOfBlock block).2.1, (sectionsOfBlock block).2.2) := by
    conv_lhs => rw [show sectionsOfBlock block =
      ((sectionsOfBlock block).1, (sectionsOfBlock block).2.1,
        (sectionsOfBlock block).2.2) from rfl]
    rw [hsec]
  refine ⟨hsec, ?_, ?_, ?_⟩
  · intro ts p hp
    have h0 : ts[p]? = none := List.getElem?_eq_none hp
    exact ⟨by simp [getTok, List.getD, h0], by simp [totalAt, List.get?_eq_getElem?, h0]⟩
  · unfold blockSubjectRows
    rw [hS]
    exact (subjectPasses_ext_nil T P _ _).1
  · unfold blockFinalState
    rw [hS]
    exact (subjectPasses_ext_nil T P _ _).2

/-- A demo block with `INT` and `TOTAL` markers but no `EXT` marker. -/
def demoBlockNoExt : List String :=
  ["1234 1234567890 M", "INT 5 6 11 7", "TOTAL 40 20"]

/-- The row `parse_student_block` yields on `demoBlockNoExt` with
`T = 2`, `P = 1`. -/
def demoRowNoExt : List Cell :=
  (parse_student_block 2 1 demoBlockNoExt).getD []

/-- Claim C5 witness. -/
theorem no_ext_marker_defaults_witness :
    (sectionsOfBlock demoBlockNoExt).1 = [] ∧
    getTok ["a", "b"] 5 = "0" ∧ totalAt ["a", "b"] 5 = 0 ∧
    (blockFinalState 2 1 demoBlockNoExt).grandExt = 0 :=
  ⟨(no_ext_marker_defaults 2 1 demoBlockNoExt (by decide)).1,
   ((no_ext_marker_defaults 2 1 demoBlockNoExt (by decide)).2.1 ["a", "b"] 5 (by decide)).1,
   ((no_ext_marker_defaults 2 1 demoBlockNoExt (by decide)).2.1 ["a", "b"] 5 (by decide)).2,
   (no_ext_marker_defaults 2 1 demoBlockNoExt (by decide)).2.2.2⟩

theorem getLast?_cons_of_ne_nil {α : Type} (t : α) {l : List α} (h : l ≠ []) :
    (t :: l).getLast? = l.getLast? := by
  cases l with
  | nil => exact absurd rfl h
  | cons b bs => rfl

theorem updateSem_getD_ne (init : List (String × String)) (t : String × String × String)
    (i : Nat) (h : semIdxOf t ≠ some i) :
    (updateSem init t).getD i ("", "") = init.getD i ("", "") := by
  unfold updateSem
  cases hj : semIdxOf t with
  | none => rfl
  | some j =>
    have hji : j ≠ i := fun hji => h (hji ▸ hj)
    simp only [List.getD, List.get?_eq_getElem?, List.getElem?_set_ne hji]

theorem updateSem_getD_eq (init : List (String × String)) (t : String × String × String)
    (i : Nat) (h : semIdxOf t = some i) (hlen : i < init.length) :
    (updateSem init t).getD i ("", "") = (t.2.1, t.2.2) := by
  unfold updateSem
  rw [h]
  simp only [List.getD, List.get?_eq_getElem?, List.getElem?_set_eq_of_lt _ hlen,
    Option.getD_some]

theorem foldl_updateSem_getD (i : Nat) :
    ∀ (ts : List (String × String × String)) (init : List (String × String)),
      i < init.length →
      (ts.foldl updateSem init).getD i ("", "") =
        ((ts.filter (fun t => semIdxOf t == some i)).getLast?).elim
          (init.getD i ("", "")) (fun t => (t.2.1, t.2.2)) := by
  intro ts
  induction ts with
  | nil => intro init _; rfl
  | cons t ts ih =>
    intro init hlen
    have hlen2 : i < (updateSem init t).length := by rw [updateSem_length]; exact hlen
    rw [List.foldl_cons, ih (updateSem init t) hlen2, List.filter_cons]
    by_cases hm : semIdxOf t = some i
    · simp only [hm, beq_self_eq_true, if_true]
      cases hrest : (ts.filter (fun t => semIdxOf t == some i)).getLast? with
      | none =>
        have hnil : ts.filter (fun t => semIdxOf t == some i) = [] := by
          cases hfil : ts.filter (fun t => semIdxOf t == some i) with
          | nil => rfl
          | cons u us => rw [hfil] at hrest; simp [List.getLast?] at hrest

        rw [hnil]
        simp only [Option.elim, List.getLast?]
        exact updateSem_getD_eq init t i hm hlen
      | some u =>
        have hne : ts.filter (fun t => semIdxOf t == some i) ≠ [] := by
          intro hc; rw [hc] at hrest; exact Option.noConfusion hrest
        rw [getLast?_cons_of_ne_nil t hne, hrest]
        rfl
    · have hbeq : (semIdxOf t == some i) = false := by
        simp only [beq_eq_false_iff_ne, ne_eq]
        exact hm
      rw [hbeq]
      simp only [Bool.false_eq_true, if_false, updateSem_getD_ne init t i hm]

/-- Claim C6: each regex triple whose semester number lies in `[1,8]`
overwrites that semester's slot, later matches for the same semester
winning — the slot ends as the last matching triple (or stays empty) —
triples with out-of-range semester numbers leave the array unchanged, and
on a block containing `3 - 10068 - 6.55` and later `3 - 99999 - 7.10` the
SEM-3 slot ends as `(99999, 7.10)`. -/
theorem sem_last_match_wins :
    (∀ (ts : List (String × String × String)) (i : Nat), i < 8 →
      (ts.foldl updateSem (List.replicate 8 ("", ""))).getD i ("", "") =
        ((ts.filter (fun t => semIdxOf t == some i)).getLast?).elim ("", "")
          (fun t => (t.2.1, t.2.2))) ∧
    (∀ (sem : List (String × String)) (t : String × String × String),
      semIdxOf t = none → updateSem sem t = sem) ∧
    (semDataOf "x 3 - 10068 - 6.55 y 3 - 99999 - 7.10 z").getD 2 ("", "") =
      ("99999", "7.10") ∧
    semDataOf "9 - 11111 - 5.00 0 - 22222 - 4.00" = List.replicate 8 ("", "") := by
  refine ⟨?_, ?_, by decide, by decide⟩
  · intro ts i hi
    have hrep : (List.replicate 8 (("", "") : String × String)).getD i ("", "") = ("", "") := by
      interval_cases i <;> rfl
    rw [foldl_updateSem_getD i ts (List.replicate 8 ("", "")) (by simpa using hi), hrep]
  · intro sem t h
    unfold updateSem
    rw [h]

/-- Claim C6 witness. -/
theorem sem_last_match_wins_witness :
    (([("3", "10068", "6.55"), ("3", "99999", "7.10")].foldl updateSem
        (List.replicate 8 ("", ""))).getD 2 ("", "") =
      (([("3", "10068", "6.55"), ("3", "99999", "7.10")].filter
          (fun t => semIdxOf t == some 2)).getLast?).elim ("", "")
        (fun t => (t.2.1, t.2.2))) ∧
    updateSem (List.replicate 8 ("", "")) ("9", "11111", "5.00") =
      List.replicate 8 ("", "") :=
  ⟨sem_last_match_wins.1 [("3", "10068", "6.55"), ("3", "99999", "7.10")] 2 (by decide),
   sem_last_match_wins.2.1 (List.replicate 8 ("", "")) ("9", "11111", "5.00") (by decide)⟩

/-- The claimed section pipeline, in the spec's stated order: apply
`clean_section_tokens` to the raw slice first, then `normalize` to every
token of the result. -/
def cleanThenNormalize (slice : List String) : List String :=
  (clean_section_tokens slice).map normalize

/-- A block whose INT slice is `["ZERO", "+", "5"]`: the two pipeline orders
disagree on it. -/
def demoBlockC7 : List String :=
  ["1234 1234567890 M INT ZERO + 5 TOTAL 10"]

/-- Claim C7 counterexample: in the block `demoBlockC7` the INT marker sits
at index 3 and the next marker (TOTAL) at index 7, so the INT slice is
tokens 4–6, namely `["ZERO", "+", "5"]`; the parser's INT section is
`["0+5"]` (normalize first, then clean), which differs from the claimed
clean-first-then-normalize result `["ZERO+5"]`. -/
theorem section_pipeline_order_counterexample :
    (blockTokens demoBlockC7).findIdx? (fun t => t == "INT") = some 3 ∧
    (blockTokens demoBlockC7).findIdx? (fun t => t == "TOTAL") = some 7 ∧
    ((blockTokens demoBlockC7).drop 4).take 3 = ["ZERO", "+", "5"] ∧
    (sectionsOfBlock demoBlockC7).2.1 = ["0+5"] ∧
    cleanThenNormalize (((blockTokens demoBlockC7).drop 4).take 3) = ["ZERO+5"] ∧
    (sectionsOfBlock demoBlockC7).2.1 ≠
      cleanThenNormalize (((blockTokens demoBlockC7).drop 4).take 3) := by
  refine ⟨by decide, by decide, by decide, by decide, by decide, by decide⟩

/-- Claim C7 as amended: each found marker's section is the token slice
`[markerIndex+1, nextMarkerIndex)` (to the end of the tokens for the last
marker) with `normalize` applied to every token of the slice first and
`clean_section_tokens` applied to the result — normalize first, then clean;
stated for the marker layout INT < EXT < TOTAL. -/
theorem sections_normalize_then_clean (block : List String) (i e j : Nat)
    (hInt : (blockTokens block).findIdx? (fun t => t == "INT") = some i)
    (hExt : (blockTokens block).findIdx? (fun t => t == "EXT") = some e)
    (hTot : (blockTokens block).findIdx? (fun t => t == "TOTAL") = some j)
    (hie : i < e) (hej : e < j) :
    (sectionsOfBlock block).2.1 =
      clean_section_tokens
        ((((blockTokens block).drop (i + 1)).take (e - (i + 1))).map normalize) ∧
    (sectionsOfBlock block).1 =
      clean_section_tokens
        ((((blockTokens block).drop (e + 1)).take (j - (e + 1))).map normalize) ∧
    (sectionsOfBlock block).2.2 =
      clean_section_tokens
        ((((blockTokens block).drop (j + 1)).take
          ((blockTokens block).length - (j + 1))).map normalize) := by
  unfold sectionsOfBlock foundMarkers
  simp only [List.filterMap_cons, List.filterMap_nil]
  rw [hInt, hExt, hTot]
  simp only [Option.map_some']
  have h1 : i ≤ j := by omega
  have h2 : ¬ e ≤ i := by omega
  have h3 : e ≤ j := by omega
  simp only [sortByIdx, insertByIdx, h1, h2, h3, if_true, if_false,
    ite_true, ite_false, not_false_iff]
  simp only [buildSections, String.reduceEq, if_false, if_true, reduceIte]
  exact ⟨by trivial, by trivial, by trivial⟩

/-- Claim C7 (amended) witness. -/
theorem sections_normalize_then_clean_witness :
    (sectionsOfBlock demoBlock).2.1 =
      clean_section_tokens
        ((((blockTokens demoBlock).drop 6).take (20 - 6)).map normalize) :=
  (sections_normalize_then_clean demoBlock 5 20 35
    (by decide) (by decide) (by decide) (by decide) (by decide)).1

theorem mergeMetadata_cons (r : String × List String)
    (rows meta : List (String × List String)) :
    mergeMetadata (r :: rows) meta =
      (if ((meta.map (fun m => (pyStrip m.1, m.2))).filter
            (fun m => m.1 == pyStrip r.1)).isEmpty then
        [(pyStrip r.1, r.2, none)]
      else ((meta.map (fun m => (pyStrip m.1, m.2))).filter
            (fun m => m.1 == pyStrip r.1)).map
          (fun m => (pyStrip r.1, r.2, some m.2))) ++ mergeMetadata rows meta := rfl

/-- Claim C9: the metadata merge is a left join on the trimmed secondary ID —
the whitespace-padded `" 11111 "` joins the entry keyed `"11111"` — every
parsed row reappears in the merged output with its trimmed key and payload,
and a row with no matching metadata entry is kept with absent metadata
fields rather than dropped. -/
theorem metadata_merge_left_join :
    (mergeMetadata [(" 11111 ", ["r"])] [("11111", ["S100", "General"])] =
      [("11111", ["r"], some ["S100", "General"])]) ∧
    (∀ (rows meta : List (String × List String)) (r : String × List String),
      r ∈ rows → ∃ o, (pyStrip r.1, r.2, o) ∈ mergeMetadata rows meta) ∧
    (∀ (rows meta : List (String × List String)) (r : String × List String),
      r ∈ rows →
      ((meta.map (fun m => (pyStrip m.1, m.2))).filter
        (fun m => m.1 == pyStrip r.1)).isEmpty = true →
      (pyStrip r.1, r.2, (none : Option (List String))) ∈ mergeMetadata rows meta) := by
  refine ⟨by decide, ?_, ?_⟩
  · intro rows meta r
    induction rows with
    | nil => intro hr; cases hr
    | cons a rows ih =>
      intro hr
      rcases List.mem_cons.mp hr with rfl | hmem
      · rw [mergeMetadata_cons]
        by_cases hempty : ((meta.map (fun m => (pyStrip m.1, m.2))).filter
            (fun m => m.1 == pyStrip r.1)).isEmpty = true
        · exact ⟨none, List.mem_append.mpr (Or.inl (by
            rw [if_pos hempty]; exact List.mem_singleton_self _))⟩
        · obtain ⟨m, ms', hms⟩ : ∃ m ms',
              ((meta.map (fun m => (pyStrip m.1, m.2))).filter
                (fun m => m.1 == pyStrip r.1)) = m :: ms' := by
            cases hfil : ((meta.map (fun m => (pyStrip m.1, m.2))).filter
                (fun m => m.1 == pyStrip r.1)) with
            | nil => rw [hfil] at hempty; simp at hempty
            | cons m ms' => exact ⟨m, ms', rfl⟩
          refine ⟨some m.2, List.mem_append.mpr (Or.inl ?_)⟩
          rw [if_neg hempty, hms, List.map_cons]
          exact List.mem_cons_self _ _
      · obtain ⟨o, ho⟩ := ih hmem
        exact ⟨o, by rw [mergeMetadata_cons]; exact List.mem_append.mpr (Or.inr ho)⟩
  · intro rows meta r
    induction rows with
    | nil => intro hr _; cases hr
    | cons a rows ih =>
      intro hr hempty
      rcases List.mem_cons.mp hr with rfl | hmem
      · rw [mergeMetadata_cons]
        exact List.mem_append.mpr (Or.inl (by
          rw [if_pos hempty]; exact List.mem_singleton_self _))
      · rw [mergeMetadata_cons]
        exact List.mem_append.mpr (Or.inr (ih hmem hempty))

/-- Claim C9 witness. -/
theorem metadata_merge_left_join_witness :
    (pyStrip "22222", ["x"], (none : Option (List String))) ∈
      mergeMetadata [("22222", ["x"])] [("11111", ["S100", "General"])] :=
  metadata_merge_left_join.2.2 [("22222", ["x"])] [("11111", ["S100", "General"])]
    ("22222", ["x"]) (List.mem_singleton_self _) (by decide)

end Csvcont
